import Mathlib

/-!
A shallow embedding of `src/Redirector.py`, a WebSocket path-based reverse
relay built on `asyncio` and the `websockets` library.

The script consists of:
* module-level configuration (`SSL_ENABLED`, `SSL_Key`, `SSL_Cert`,
  `Main_port`, `port_mapping`);
* the per-connection handler `relay(websocket, path)`, which looks the path
  up in `port_mapping`, closes the client when there is no route, otherwise
  dials `ws://localhost:<port>` once and then runs the two forwarding loops
  `forward_to_target` / `forward_from_target` under `asyncio.gather`;
* an unused inner callback `on_close`;
* a startup sequence that, when `SSL_ENABLED`, builds a TLS context and
  loads the certificate chain before creating and running the server.

The embedding models each connection endpoint's behaviour as a list of
external events and the observable actions of the process as a trace of
effects.  Library semantics used by the code are embedded as follows
(documented behaviour of `websockets` and `asyncio`):
* `async for message in ws` yields the received messages in order, ends
  normally when the peer closes with a normal close, and raises
  `ConnectionClosedError` on an abnormal close;
* `ws.send(...)` on a closed connection raises `ConnectionClosed`;
* `asyncio.gather(a, b)` (default `return_exceptions=False`) completes when
  both coroutines complete, and propagates the first raised exception
  immediately without cancelling the other coroutine;
* `websockets.serve` closes the client connection after the handler returns
  or raises; closing an already-closed connection is a no-op.
-/

/-- A WebSocket message: text (Python `str`) or binary (Python `bytes`).
The constructor records the frame type and the payload, so "same type and
same content" is equality of `Message` values. -/
inductive Message where
  | text (s : String)
  | binary (b : List Nat)
  deriving DecidableEq, Repr

/-- The two connection endpoints a relay session owns: the accepted client
connection (`websocket`) and the backend connection (`target_ws`). -/
inductive Dest where
  | client
  | backend
  deriving DecidableEq, Repr

/-- Observable actions of the process.  `dial` is a `websockets.connect`
attempt, `send` a `ws.send`, `close` an active close of a connection by the
process, `setTable` a (hypothetical) mutation of the route table, and `log`
a `print` call.  The last two exist so that their absence from every trace
is a statable property. -/
inductive Effect where
  | dial (url : String)
  | send (d : Dest) (m : Message)
  | close (d : Dest)
  | setTable (t : List (String × Nat))
  | log (s : String)
  deriving DecidableEq, Repr

/-- External events driving one relay session, in arrival order: a message
delivered by the client or by the backend, or a peer closing its
connection (normally or abnormally). -/
inductive Event where
  | msgFromClient (m : Message)
  | msgFromBackend (m : Message)
  | clientClosedNormal
  | clientClosedAbnormal
  | backendClosedNormal
  | backendClosedAbnormal
  deriving DecidableEq, Repr

/-- Status of one of the two forwarding coroutines spawned by
`asyncio.gather`. -/
inductive TStat where
  | running
  | done
  | raised
  deriving DecidableEq, Repr

/-- State of one relay session while (and after) relaying: whether each of
the two connections is still open, the status of the two forwarding
coroutines, and whether the handler coroutine `relay` has finished
(returned or raised), after which the server has done its teardown of the
client connection. -/
structure RelayState where
  clientOpen : Bool
  backendOpen : Bool
  toTarget : TStat
  fromTarget : TStat
  handlerDone : Bool
  deriving DecidableEq, Repr

/-- `SSL_ENABLED = True` in the source. -/
def SSL_ENABLED : Bool := true

/-- `SSL_Key = "/home/certs/key.pem"` in the source. -/
def SSL_Key : String := "/home/certs/key.pem"

/-- `SSL_Cert = "/home/certs/cert.pem"` in the source. -/
def SSL_Cert : String := "/home/certs/cert.pem"

/-- `Main_port = 2083` in the source. -/
def Main_port : Nat := 2083

/-- The module-level route table
`port_mapping = {"/hub": 327, "/smp": 330}`, embedded as an association
list (the dict's keys are distinct string literals). -/
def port_mapping : List (String × Nat) := [("/hub", 327), ("/smp", 330)]

/-- Python `dict.get(key, None)` on a string-keyed dict: exact,
case-sensitive key equality, returning `none` when the key is absent.
Used by `relay` as `port_mapping.get(path, None)`. -/
def dict_get : List (String × Nat) → String → Option Nat
  | [], _ => none
  | (k, v) :: rest, key => if key = k then some v else dict_get rest key

/-- The URL f-string `f"ws://localhost:{port}"` built in `relay`. -/
def target_url (port : Nat) : String := "ws://localhost:" ++ toString port

/-- What happens after a task-status change, mirroring
`await asyncio.gather(forward_to_target(), forward_from_target())` followed
by the server's teardown: if the handler is still pending and either
coroutine raised, the exception propagates and the handler raises; if both
completed, the handler returns.  In both cases `websockets.serve` then
closes the client connection (a no-op when it is already closed).  The
other coroutine is not cancelled.  Note the handler contains no
`target_ws.close()` on any path. -/
def checkHandler (s : RelayState) : RelayState × List Effect :=
  if s.handlerDone then (s, [])
  else if s.toTarget = TStat.raised ∨ s.fromTarget = TStat.raised ∨
      (s.toTarget = TStat.done ∧ s.fromTarget = TStat.done) then
    if s.clientOpen then
      ({ s with handlerDone := true, clientOpen := false },
        [Effect.close Dest.client])
    else ({ s with handlerDone := true }, [])
  else (s, [])

/-- One external event processed by the relaying session.  The
client-to-backend direction is the body of `forward_to_target`
(`async for message in websocket: await target_ws.send(message)`), the
backend-to-client direction the body of `forward_from_target`
(`async for message in target_ws: await websocket.send(message)`):
a delivered message is forwarded verbatim to the other connection while it
is open, a send on a closed connection raises and ends that coroutine, a
normal peer close ends the corresponding `async for` normally, an abnormal
one makes it raise. -/
def relayEventStep (s : RelayState) (e : Event) : RelayState × List Effect :=
  match e with
  | Event.msgFromClient m =>
    if s.clientOpen = true ∧ s.toTarget = TStat.running then
      if s.backendOpen then (s, [Effect.send Dest.backend m])
      else checkHandler { s with toTarget := TStat.raised }
    else (s, [])
  | Event.msgFromBackend m =>
    if s.backendOpen = true ∧ s.fromTarget = TStat.running then
      if s.clientOpen then (s, [Effect.send Dest.client m])
      else checkHandler { s with fromTarget := TStat.raised }
    else (s, [])
  | Event.clientClosedNormal =>
    if s.clientOpen then
      if s.toTarget = TStat.running then
        checkHandler { s with clientOpen := false, toTarget := TStat.done }
      else ({ s with clientOpen := false }, [])
    else (s, [])
  | Event.clientClosedAbnormal =>
    if s.clientOpen then
      if s.toTarget = TStat.running then
        checkHandler { s with clientOpen := false, toTarget := TStat.raised }
      else ({ s with clientOpen := false }, [])
    else (s, [])
  | Event.backendClosedNormal =>
    if s.backendOpen then
      if s.fromTarget = TStat.running then
        checkHandler { s with backendOpen := false, fromTarget := TStat.done }
      else ({ s with backendOpen := false }, [])
    else (s, [])
  | Event.backendClosedAbnormal =>
    if s.backendOpen then
      if s.fromTarget = TStat.running then
        checkHandler { s with backendOpen := false, fromTarget := TStat.raised }
      else ({ s with backendOpen := false }, [])
    else (s, [])

/-- Process a whole schedule of external events, accumulating the trace. -/
def runEvents : RelayState → List Event → RelayState × List Effect
  | s, [] => (s, [])
  | s, e :: es =>
    let p := relayEventStep s e
    let q := runEvents p.1 es
    (q.1, p.2 ++ q.2)

/-- Session state right after `websockets.connect` succeeded: both
connections open, both forwarding coroutines running, handler pending. -/
def initialRelaying : RelayState :=
  { clientOpen := true, backendOpen := true, toTarget := TStat.running,
    fromTarget := TStat.running, handlerDone := false }

/-- Session state after the handler ended before relaying ever started
(no route, or dial failure): both connections closed or never opened,
no forwarding coroutine left. -/
def deadState : RelayState :=
  { clientOpen := false, backendOpen := false, toTarget := TStat.done,
    fromTarget := TStat.done, handlerDone := true }

/-- The handler `relay(websocket, path)`:
`port = port_mapping.get(path, None)`; when `None`, `await
websocket.close()` and return, reading no message and dialing nothing;
otherwise one `websockets.connect(f"ws://localhost:{port}")` attempt —
when it raises, the handler raises and the server closes the client
connection; when it succeeds, the two forwarding loops run under
`asyncio.gather` and the session processes the external events. -/
def relay (table : List (String × Nat)) (path : String) (dialOk : Bool)
    (events : List Event) : RelayState × List Effect :=
  match dict_get table path with
  | none => (deadState, [Effect.close Dest.client])
  | some port =>
    if dialOk then
      let r := runEvents initialRelaying events
      (r.1, Effect.dial (target_url port) :: r.2)
    else (deadState, [Effect.dial (target_url port), Effect.close Dest.client])

/-- The loop `forward_to_target` in isolation, as a function of the list of
messages its `async for` receives from the client connection: each
iteration performs exactly `await target_ws.send(message)`. -/
def forward_to_target (received : List Message) : List Effect :=
  received.map (fun m => Effect.send Dest.backend m)

/-- The loop `forward_from_target` in isolation, as a function of the list
of messages its `async for` receives from the backend connection: each
iteration performs exactly `await websocket.send(message)`. -/
def forward_from_target (received : List Message) : List Effect :=
  received.map (fun m => Effect.send Dest.client m)

/-- The inner callback `on_close(close_status, close_message)` defined in
`relay`: its body is a single `print` of the interpolated f-string, so its
invocation would contribute exactly this `log` effect to the trace. -/
def on_close (close_status : Nat) (close_message : String) : Effect :=
  Effect.log ("Connection closed with status " ++ toString close_status ++
    " and message " ++ close_message)

/-- Interpretation of a trace on the route table: a `setTable` effect would
replace the table; every other effect leaves it unchanged. -/
def applyTable (t : List (String × Nat)) : List Effect → List (String × Nat)
  | [] => t
  | Effect.setTable t' :: es => applyTable t' es
  | _ :: es => applyTable t es

/-- The messages a trace delivers to destination `d`, in order. -/
def sentTo (d : Dest) (tr : List Effect) : List Message :=
  tr.filterMap fun e =>
    match e with
    | Effect.send d' m => if d' = d then some m else none
    | _ => none

/-- The backend connection attempts (dialed URLs) in a trace, in order. -/
def dials (tr : List Effect) : List String :=
  tr.filterMap fun e =>
    match e with
    | Effect.dial u => some u
    | _ => none

/-- The messages the client delivers in a schedule, in order. -/
def clientMsgs (es : List Event) : List Message :=
  es.filterMap fun e =>
    match e with
    | Event.msgFromClient m => some m
    | _ => none

/-- The messages the backend delivers in a schedule, in order. -/
def backendMsgs (es : List Event) : List Message :=
  es.filterMap fun e =>
    match e with
    | Event.msgFromBackend m => some m
    | _ => none

/-- A schedule consisting of message deliveries only (no close events):
the session stays in the relaying phase throughout. -/
def isMsgEvent : Event → Bool
  | Event.msgFromClient _ => true
  | Event.msgFromBackend _ => true
  | _ => false

/-- All events of the schedule are message deliveries. -/
def msgOnly (es : List Event) : Prop := ∀ e ∈ es, isMsgEvent e = true

/-- Observable actions of the startup sequence at the bottom of the
script. -/
inductive StartupEffect where
  | loadCertChain (cert key : String)
  | bindPort (port : Nat)
  | acceptLoop
  deriving DecidableEq, Repr

/-- The module-level startup code: when `SSL_ENABLED`, an
`ssl.SSLContext` is built and `load_cert_chain(SSL_Cert, SSL_Key)` runs
before `websockets.serve` is created; a `load_cert_chain` failure raises
and terminates the script before `run_until_complete(start_server)` binds
the port and `run_forever()` accepts connections.  The boolean result
records whether the process reached the serving state. -/
def startup (sslEnabled : Bool) (certOk : Bool) : List StartupEffect × Bool :=
  if sslEnabled then
    if certOk then
      ([StartupEffect.loadCertChain SSL_Cert SSL_Key,
        StartupEffect.bindPort Main_port, StartupEffect.acceptLoop], true)
    else
      ([StartupEffect.loadCertChain SSL_Cert SSL_Key], false)
  else
    ([StartupEffect.bindPort Main_port, StartupEffect.acceptLoop], true)

/-! ## Trace-shape lemmas -/

/-- Every effect a forwarding step can emit: a send to the backend, a send
to the client, or the server-side close of the client connection. -/
def stepEff (eff : Effect) : Prop :=
  (∃ m, eff = Effect.send Dest.backend m) ∨
    (∃ m, eff = Effect.send Dest.client m) ∨
    eff = Effect.close Dest.client

/-- Every effect a whole relay session can emit: one of the forwarding
effects, or the single backend dial. -/
def relayEff (eff : Effect) : Prop :=
  (∃ u, eff = Effect.dial u) ∨ stepEff eff

lemma checkHandler_effects (s : RelayState) :
    (checkHandler s).2 = [] ∨ (checkHandler s).2 = [Effect.close Dest.client] := by
  unfold checkHandler
  split
  · exact Or.inl rfl
  · split
    · split
      · exact Or.inr rfl
      · exact Or.inl rfl
    · exact Or.inl rfl

lemma mem_checkHandler (s : RelayState) (eff : Effect)
    (h : eff ∈ (checkHandler s).2) : eff = Effect.close Dest.client := by
  rcases checkHandler_effects s with h2 | h2 <;> rw [h2] at h <;> simp_all

lemma relayEventStep_effects (s : RelayState) (e : Event) (eff : Effect)
    (h : eff ∈ (relayEventStep s e).2) : stepEff eff := by
  cases e <;> simp only [relayEventStep] at h <;> (repeat' split at h) <;>
    first
      | exact absurd h (List.not_mem_nil _)
      | (rw [List.mem_singleton] at h; subst h;
         first
           | exact Or.inl ⟨_, rfl⟩
           | exact Or.inr (Or.inl ⟨_, rfl⟩))
      | exact Or.inr (Or.inr (mem_checkHandler _ _ h))

lemma runEvents_effects (s : RelayState) (es : List Event) (eff : Effect)
    (h : eff ∈ (runEvents s es).2) : stepEff eff := by
  induction es generalizing s with
  | nil => simp [runEvents] at h
  | cons e es ih =>
    simp only [runEvents, List.mem_append] at h
    rcases h with h | h
    · exact relayEventStep_effects s e eff h
    · exact ih _ h

lemma relay_effects (table : List (String × Nat)) (path : String)
    (dialOk : Bool) (events : List Event) (eff : Effect)
    (h : eff ∈ (relay table path dialOk events).2) : relayEff eff := by
  unfold relay at h
  split at h
  · simp at h
    exact Or.inr (Or.inr (Or.inr h))
  · split at h
    · simp only [List.mem_cons] at h
      rcases h with h | h
      · exact Or.inl ⟨_, h⟩
      · exact Or.inr (runEvents_effects _ _ _ h)
    · simp at h
      rcases h with h | h
      · exact Or.inl ⟨_, h⟩
      · exact Or.inr (Or.inr (Or.inr h))

lemma applyTable_const (t : List (String × Nat)) (tr : List Effect)
    (h : ∀ t', Effect.setTable t' ∉ tr) : applyTable t tr = t := by
  induction tr with
  | nil => rfl
  | cons e es ih =>
    have hes : ∀ t', Effect.setTable t' ∉ es := by
      intro t' hmem
      exact h t' (List.mem_cons_of_mem _ hmem)
    cases e with
    | setTable t' => exact absurd (List.mem_cons_self _ _) (h t')
    | dial u => exact ih hes
    | send d m => exact ih hes
    | close d => exact ih hes
    | log s => exact ih hes

lemma dials_runEvents (s : RelayState) (es : List Event) :
    dials (runEvents s es).2 = [] := by
  rw [dials, List.filterMap_eq_nil_iff]
  intro eff hmem
  rcases runEvents_effects s es eff hmem with ⟨m, hm⟩ | ⟨m, hm⟩ | hm <;> subst hm <;> rfl

lemma runEvents_sentTo (es : List Event) (h : msgOnly es) :
    (runEvents initialRelaying es).1 = initialRelaying ∧
    sentTo Dest.backend (runEvents initialRelaying es).2 = clientMsgs es ∧
    sentTo Dest.client (runEvents initialRelaying es).2 = backendMsgs es := by
  induction es with
  | nil => simp [runEvents, sentTo, clientMsgs, backendMsgs]
  | cons e es ih =>
    have he : isMsgEvent e = true := h e (List.mem_cons_self _ _)
    have hes : msgOnly es := fun x hx => h x (List.mem_cons_of_mem _ hx)
    obtain ⟨ih1, ih2, ih3⟩ := ih hes
    cases e with
    | msgFromClient m =>
      refine ⟨?_, ?_, ?_⟩ <;>
        simp only [runEvents, relayEventStep, initialRelaying] <;>
        simp_all [initialRelaying, sentTo, clientMsgs, backendMsgs]
    | msgFromBackend m =>
      refine ⟨?_, ?_, ?_⟩ <;>
        simp only [runEvents, relayEventStep, initialRelaying] <;>
        simp_all [initialRelaying, sentTo, clientMsgs, backendMsgs]
    | clientClosedNormal => simp [isMsgEvent] at he
    | clientClosedAbnormal => simp [isMsgEvent] at he
    | backendClosedNormal => simp [isMsgEvent] at he
    | backendClosedAbnormal => simp [isMsgEvent] at he

/-! ## Claims -/

/-- Claim C1: for every session in the `RELAYING` state and every sequence
of messages delivered in one direction, the destination connection
receives exactly those messages, in the same order, with the same message
type (text vs binary) and identical content — `relay` forwards verbatim in
both directions. -/
theorem C1_relaying_forwards_verbatim (table : List (String × Nat))
    (path : String) (port : Nat) (events : List Event)
    (hroute : dict_get table path = some port) (hmsg : msgOnly events) :
    sentTo Dest.backend (relay table path true events).2 = clientMsgs events ∧
    sentTo Dest.client (relay table path true events).2 = backendMsgs events := by
  obtain ⟨h1, h2, h3⟩ := runEvents_sentTo events hmsg
  unfold relay
  rw [hroute]
  simp only [if_pos rfl]
  constructor
  · simpa [sentTo, List.filterMap_cons] using h2
  · simpa [sentTo, List.filterMap_cons] using h3

/-- Witness for C1: on the mapped path `/hub`, the client messages
`0xDEADBEEF` (binary) and `"list"` (text) reach the backend verbatim and
in order, and the backend's text reply `"ok"` reaches the client. -/
theorem C1_relaying_forwards_verbatim_witness :
    sentTo Dest.backend (relay port_mapping "/hub" true
      [Event.msgFromClient (Message.binary [222, 173, 190, 239]),
       Event.msgFromBackend (Message.text "ok"),
       Event.msgFromClient (Message.text "list")]).2 =
      [Message.binary [222, 173, 190, 239], Message.text "list"] ∧
    sentTo Dest.client (relay port_mapping "/hub" true
      [Event.msgFromClient (Message.binary [222, 173, 190, 239]),
       Event.msgFromBackend (Message.text "ok"),
       Event.msgFromClient (Message.text "list")]).2 = [Message.text "ok"] := by
  have h := C1_relaying_forwards_verbatim port_mapping "/hub" 327
    [Event.msgFromClient (Message.binary [222, 173, 190, 239]),
     Event.msgFromBackend (Message.text "ok"),
     Event.msgFromClient (Message.text "list")] (by decide)
    (by unfold msgOnly; decide)
  simpa [clientMsgs, backendMsgs] using h

/-- Claim C2 (refuted as stated; evidence of the code bug): `relay` never
emits a close of the backend connection on any input — it contains no
`target_ws.close()` — and on the concrete failing input (mapped path
`/hub`, successful dial, client closes normally, backend silent) the
session is left with the backend connection still open and the handler
still pending forever: `asyncio.gather` keeps waiting on
`forward_from_target`, so the backend is not closed within any bounded
time. -/
theorem C2_backend_never_proactively_closed :
    (∀ (table : List (String × Nat)) (path : String) (dialOk : Bool)
        (events : List Event),
        Effect.close Dest.backend ∉ (relay table path dialOk events).2) ∧
    (relay port_mapping "/hub" true [Event.clientClosedNormal]).1.backendOpen
      = true ∧
    (relay port_mapping "/hub" true [Event.clientClosedNormal]).1.handlerDone
      = false := by
  refine ⟨?_, by decide, by decide⟩
  intro table path dialOk events h
  have hshape := relay_effects table path dialOk events _ h
  simp [relayEff, stepEff] at hshape

/-- Claim C3: for every request path not present in the route table,
the session closes the client connection and terminates, with no backend
dial and no backend traffic, regardless of the client's messages. -/
theorem C3_no_route_closes_client_without_dial (table : List (String × Nat))
    (path : String) (dialOk : Bool) (events : List Event)
    (hroute : dict_get table path = none) :
    (relay table path dialOk events).2 = [Effect.close Dest.client] ∧
    dials (relay table path dialOk events).2 = [] ∧
    sentTo Dest.backend (relay table path dialOk events).2 = [] ∧
    (relay table path dialOk events).1.handlerDone = true := by
  unfold relay
  rw [hroute]
  simp [dials, sentTo, deadState]

/-- Witness for C3: path `/unknown` is unmapped; the trace is exactly one
client close, with no dial and no backend send, even though the client
sends a message. -/
theorem C3_no_route_closes_client_without_dial_witness :
    (relay port_mapping "/unknown" true
      [Event.msgFromClient (Message.text "hello")]).2 =
      [Effect.close Dest.client] ∧
    dials (relay port_mapping "/unknown" true
      [Event.msgFromClient (Message.text "hello")]).2 = [] ∧
    sentTo Dest.backend (relay port_mapping "/unknown" true
      [Event.msgFromClient (Message.text "hello")]).2 = [] ∧
    (relay port_mapping "/unknown" true
      [Event.msgFromClient (Message.text "hello")]).1.handlerDone = true :=
  C3_no_route_closes_client_without_dial port_mapping "/unknown" true
    [Event.msgFromClient (Message.text "hello")] (by decide)

/-- Claim C4: for every mapped path, the session makes exactly one backend
connection attempt, to `localhost` at the mapped port, over plain
(non-TLS) `ws://`. -/
theorem C4_mapped_path_dials_once_plain_ws (table : List (String × Nat))
    (path : String) (port : Nat) (dialOk : Bool) (events : List Event)
    (hroute : dict_get table path = some port) :
    dials (relay table path dialOk events).2 = [target_url port] ∧
    target_url port = "ws://" ++ ("localhost:" ++ toString port) := by
  constructor
  · unfold relay
    rw [hroute]
    cases dialOk with
    | true =>
      have h0 := dials_runEvents initialRelaying events
      simp only [dials] at h0
      simp [dials, h0]
    | false => simp [dials]
  · rw [target_url, ← String.append_assoc]
    rfl

/-- Witness for C4: path `/hub` maps to port 327 and produces exactly the
single plain-WebSocket dial `ws://localhost:327`. -/
theorem C4_mapped_path_dials_once_plain_ws_witness :
    dials (relay port_mapping "/hub" true []).2 = [target_url 327] ∧
    target_url 327 = "ws://" ++ ("localhost:" ++ toString 327) :=
  C4_mapped_path_dials_once_plain_ws port_mapping "/hub" 327 true [] (by decide)

/-- Claim C5: when the backend dial fails, the handler raises out of
`websockets.connect` and the server closes the client connection: the
trace is exactly the one dial followed by the client close — no message is
exchanged in either direction and the dial is not retried — and the
session ends with both connections closed. -/
theorem C5_dial_failure_closes_client (table : List (String × Nat))
    (path : String) (port : Nat) (events : List Event)
    (hroute : dict_get table path = some port) :
    (relay table path false events).2 =
      [Effect.dial (target_url port), Effect.close Dest.client] ∧
    sentTo Dest.backend (relay table path false events).2 = [] ∧
    sentTo Dest.client (relay table path false events).2 = [] ∧
    dials (relay table path false events).2 = [target_url port] ∧
    (relay table path false events).1.clientOpen = false ∧
    (relay table path false events).1.backendOpen = false ∧
    (relay table path false events).1.handlerDone = true := by
  unfold relay
  rw [hroute]
  simp [sentTo, dials, deadState]

/-- Witness for C5: on `/smp` (mapped to 330) with a failing dial, the
trace is the dial of `ws://localhost:330` followed by the client close. -/
theorem C5_dial_failure_closes_client_witness :
    (relay port_mapping "/smp" false
      [Event.msgFromClient (Message.text "hi")]).2 =
      [Effect.dial (target_url 330), Effect.close Dest.client] ∧
    sentTo Dest.backend (relay port_mapping "/smp" false
      [Event.msgFromClient (Message.text "hi")]).2 = [] ∧
    sentTo Dest.client (relay port_mapping "/smp" false
      [Event.msgFromClient (Message.text "hi")]).2 = [] ∧
    dials (relay port_mapping "/smp" false
      [Event.msgFromClient (Message.text "hi")]).2 = [target_url 330] ∧
    (relay port_mapping "/smp" false
      [Event.msgFromClient (Message.text "hi")]).1.clientOpen = false ∧
    (relay port_mapping "/smp" false
      [Event.msgFromClient (Message.text "hi")]).1.backendOpen = false ∧
    (relay port_mapping "/smp" false
      [Event.msgFromClient (Message.text "hi")]).1.handlerDone = true :=
  C5_dial_failure_closes_client port_mapping "/smp" 330
    [Event.msgFromClient (Message.text "hi")] (by decide)

/-- Claim C6: the router `port_mapping.get(path, None)` is a pure
exact-match lookup — it returns a port exactly for the byte-equal keys
present in the table, and `none` exactly when no entry has that key. -/
theorem C6_router_exact_match (path : String) (p : Nat) :
    (dict_get port_mapping path = some p ↔ (path, p) ∈ port_mapping) ∧
    (dict_get port_mapping path = none ↔ ∀ q : Nat, (path, q) ∉ port_mapping) := by
  have hhs : ("/hub" : String) ≠ "/smp" := by decide
  by_cases h1 : path = "/hub"
  · subst h1
    constructor
    · simp [port_mapping, dict_get]
      exact eq_comm
    · simp [port_mapping, dict_get]
  · by_cases h2 : path = "/smp"
    · subst h2
      constructor
      · simp [port_mapping, dict_get, hhs.symm]
        exact eq_comm
      · simp [port_mapping, dict_get, hhs.symm]
    · constructor
      · simp [port_mapping, dict_get, h1, h2]
      · simp [port_mapping, dict_get, h1, h2]

/-- Claim C7: with secure transport enabled (`SSL_ENABLED = True`), a
failure of `load_cert_chain` terminates the script before
`run_until_complete(start_server)`: the startup trace contains no port
bind and no accept loop, and the process never reaches the serving
state. -/
theorem C7_cert_failure_prevents_serving :
    (startup SSL_ENABLED false).2 = false ∧
    (∀ p : Nat, StartupEffect.bindPort p ∉ (startup SSL_ENABLED false).1) ∧
    StartupEffect.acceptLoop ∉ (startup SSL_ENABLED false).1 := by
  refine ⟨by decide, fun p => ?_, by decide⟩
  simp [startup, SSL_ENABLED]

/-- Claim C8: no relay session ever mutates the route table — interpreting
any session trace over any initial table leaves the table unchanged, since
no trace contains a table write. -/
theorem C8_route_table_immutable (table : List (String × Nat)) (path : String)
    (dialOk : Bool) (events : List Event) :
    applyTable table (relay table path dialOk events).2 = table := by
  apply applyTable_const
  intro t' h
  have hshape := relay_effects table path dialOk events _ h
  simp [relayEff, stepEff] at hshape

/-- Claim C9: the inner callback `on_close` is dead code — no relay session
trace, under any schedule of client and backend events, contains the `log`
effect that an invocation of `on_close` would produce. -/
theorem C9_on_close_dead_code (table : List (String × Nat)) (path : String)
    (dialOk : Bool) (events : List Event) (c : Nat) (msg : String) :
    on_close c msg ∉ (relay table path dialOk events).2 := by
  intro h
  have hshape := relay_effects table path dialOk events _ h
  simp [on_close, relayEff, stepEff] at hshape

/-- Claim C10: each forwarding direction writes only to its own
destination — `forward_to_target` sends only on the backend connection and
`forward_from_target` only on the client connection — and neither loop
closes a connection, dials, logs, or changes the route table. -/
theorem C10_forwarding_directions_frame (ms : List Message)
    (t : List (String × Nat)) :
    (∀ m, Effect.send Dest.client m ∉ forward_to_target ms) ∧
    (∀ m, Effect.send Dest.backend m ∉ forward_from_target ms) ∧
    (∀ e ∈ forward_to_target ms, ∃ m, e = Effect.send Dest.backend m) ∧
    (∀ e ∈ forward_from_target ms, ∃ m, e = Effect.send Dest.client m) ∧
    applyTable t (forward_to_target ms) = t ∧
    applyTable t (forward_from_target ms) = t ∧
    (∀ d, Effect.close d ∉ forward_to_target ms) ∧
    (∀ d, Effect.close d ∉ forward_from_target ms) ∧
    (∀ u, Effect.dial u ∉ forward_to_target ms) ∧
    (∀ u, Effect.dial u ∉ forward_from_target ms) ∧
    (∀ s, Effect.log s ∉ forward_to_target ms) ∧
    (∀ s, Effect.log s ∉ forward_from_target ms) := by
  refine ⟨?_, ?_, ?_, ?_, ?_, ?_, ?_, ?_, ?_, ?_, ?_, ?_⟩ <;>
    first
      | (apply applyTable_const
         intro t' hmem
         simp [forward_to_target, forward_from_target] at hmem)
      | simp [forward_to_target, forward_from_target]
